import Mathlib

/-!
Verification of the node bootstrap and command-orchestration layer of
`src/example/ioserv.c` (the `ioserv` command-line driver).

The C program is a single `main` that parses getopt-style options into a
configuration, optionally daemonizes, creates a node, registers transform
engines and remote peers, optionally joins the cluster, and dispatches a
fixed sequence of one-shot operations.  All external collaborators
(`dnet_*` library calls, backend initializers, `fork`, `fopen`) are black
boxes; we model their results as an environment `Env` of oracle functions,
and the driver itself as a deterministic function from the parsed option
list and the environment to a trace of external calls (`Event` list) plus
a process `Outcome`.
-/

/-- Modelled from the spec: `DNET_ID_SIZE`, the fixed identifier width, is
declared in the excluded header `dnet/packet.h`; the spec says it is a
fixed constant (e.g. 20 or 32 bytes).  We fix 20; no claim depends on the
exact value. -/
def DNET_ID_SIZE : Nat := 20

/-- An identifier buffer (`unsigned char [DNET_ID_SIZE]`), as a byte list. -/
abbrev Ident := List Nat

/-- The all-zero identifier. -/
def zeroId : Ident := List.replicate DNET_ID_SIZE 0

/-- A parsed `addr:port:family` triple (result of `dnet_parse_addr`). -/
structure AddrSpec where
  addr : String
  port : Nat
  family : Nat
deriving DecidableEq, Repr

/-- Which storage backend got wired into `cfg` (ioserv.c lines 253-265):
`kvStore` is the TokyoCabinet path (`tc_backend_init` +
`tc_backend_command_handler`), `fileTree` the file backend
(`file_backend_setup_root` + `file_backend_command_handler`) with its
fan-out bit width. -/
inductive BackendKind
| kvStore
| fileTree (numBits : Int)
deriving DecidableEq, Repr

/-- What this process observes from `fork()` in `dnet_background`
(ioserv.c line 50): failure, being the parent (child pid returned), or
being the child. -/
inductive ForkOutcome
| failed
| inParent (pid : Nat)
| inChild
deriving DecidableEq, Repr

/-- Result of `dnet_background` (ioserv.c lines 46-68) for the process at
hand: the parent prints the pid and calls `exit(0)`; the child calls
`setsid` and closes fds 0,1,2 then returns 0; on fork failure the function
returns -1 without detaching. -/
inductive BgResult
| parentExit (pid : Nat)
| contDetached
| contFailed
deriving DecidableEq, Repr

/-- Shallow embedding of `dnet_background` (ioserv.c lines 46-68). -/
def dnetBackground : ForkOutcome → BgResult
| ForkOutcome.failed => BgResult.contFailed
| ForkOutcome.inParent pid => BgResult.parentExit pid
| ForkOutcome.inChild => BgResult.contDetached

/-- One external call made by `main` after option parsing: node creation,
transform registration, peer add, join, and the seven dispatched
operations, with the arguments the C code passes. -/
inductive Event
| nodeCreate
| addTransform (idx : Nat) (name : String)
| addState (idx : Nat)
| joinNet
| writeFile (f : String) (i : Option Ident) (off sz : Nat)
| readFile (f : String) (i : Option Ident) (off sz : Nat) (hist : Bool)
| removeFile (f : String) (i : Option Ident)
| sendCmd (tid : Ident) (c : String)
| lookup (f : String)
| requestStat
deriving DecidableEq, Repr

/-- Final fate of the process: `exited code` (a `return code` from `main`),
`parentExited pid` (the daemonizing parent's `exit(0)` after printing the
child pid, ioserv.c lines 56-59), or `serving` (the indefinite
`while (1) sleep(1)` loop, ioserv.c lines 334-338). -/
inductive Outcome
| exited (code : Int)
| parentExited (pid : Nat)
| serving
deriving DecidableEq, Repr

/-- Environment of black-box external collaborators: each field gives the
result the corresponding external call would return.  `Except Int α`
errors carry the nonzero error code the C call returned (so that
`if (err) return err;` propagates it); `Option` results model
NULL-returning calls. -/
structure Env where
  parseNumericId : String → Except Int Ident
  parseAddr : String → Except Int AddrSpec
  engineMalloc : Nat → Bool
  reallocRemotes : Nat → Bool
  cryptoEngineInit : String → Except Int Unit
  fopenLog : String → Except Int Unit
  tcBackendInit : String → String → String → Option Nat
  fileBackendSetupRoot : String → Nat → Int → Option Nat
  forkRes : ForkOutcome
  nodeCreate : Option Nat
  addTransformRes : Nat → String → Int
  addStateRes : Nat → Int
  joinRes : Int
  writeFileRes : String → Option Ident → Nat → Nat → Int
  readFileRes : String → Option Ident → Nat → Nat → Bool → Int
  removeFileRes : String → Option Ident → Int
  sendCmdRes : Ident → String → Int
  lookupRes : String → Int
  requestStatRes : Int

/-- `trans_max` (ioserv.c line 105): capacity of the local transform
pointer array. -/
def transMax : Nat := 5

/-- The mutable locals of `main` that the option loop (ioserv.c lines
129-236) builds up, together with the relevant `cfg` fields set at lines
117-125.  `transId` starts as the caller-supplied `stackInit` because the
C `trans_id` array is an uninitialized stack buffer; `idSet` records
whether the `id` pointer was pointed at `trans_id` (case 'I'). -/
structure St where
  removef : Option String
  readf : Option String
  writef : Option String
  historyf : Option String
  lookupf : Option String
  cmdStr : Option String
  root : Option String
  logfile : Option String
  offset : Nat
  sizev : Nat
  tc : Bool
  statFlag : Bool
  daemon : Bool
  joinFlag : Bool
  numBits : Int
  transId : Ident
  idSet : Bool
  cfgId : Ident
  cfgAddr : Option AddrSpec
  remScratch : Option AddrSpec
  remotes : List AddrSpec
  transforms : List String
  waitTimeout : Int
  logMask : Int
  maxPending : Int
  ioThreadNum : Int
  resendCount : Int
deriving DecidableEq, Repr

/-- Initial state: `memset(&cfg, 0, ...)` plus the explicit defaults of
ioserv.c lines 105, 119-125; `trans_id` keeps its indeterminate stack
contents `stackInit`.  `cfg.log_mask = ~0` is modelled as -1 (all bits). -/
def initSt (stackInit : Ident) : St :=
  { removef := none, readf := none, writef := none, historyf := none
  , lookupf := none, cmdStr := none, root := none, logfile := none
  , offset := 0, sizev := 0
  , tc := false, statFlag := false, daemon := false, joinFlag := false
  , numBits := 8
  , transId := stackInit, idSet := false
  , cfgId := zeroId, cfgAddr := none
  , remScratch := none, remotes := []
  , transforms := []
  , waitTimeout := 3600, logMask := -1, maxPending := 0, ioThreadNum := 0
  , resendCount := 3 }

/-- One parsed command-line option, one constructor per `case` of the
getopt switch (ioserv.c lines 129-236); numeric arguments carry the value
`atoi`/`strtoull` produced.  `Opt.h` also stands for any unrecognized
option (getopt's `?`), both of which print usage and return -1. -/
inductive Opt
| u (file : String)
| O (off : Nat)
| S (sz : Nat)
| P (n : Int)
| N (n : Int)
| t
| f (bits : Int)
| m (mask : Int)
| s
| H (file : String)
| L (file : String)
| D
| w (t : Int)
| l (file : String)
| c (cmd : String)
| I (idStr : String)
| i (idStr : String)
| a (addrStr : String)
| r (addrStr : String)
| j
| d (rootDir : String)
| W (file : String)
| R (file : String)
| T (name : String)
| h
deriving DecidableEq, Repr

/-- One iteration of the getopt switch (ioserv.c lines 130-235).
`Except.error e` is `main` returning `e` from inside the loop.
-ENOMEM = -12. -/
def stepOpt (env : Env) (st : St) : Opt → Except Int St
| Opt.u file => Except.ok { st with removef := some file }
| Opt.O off => Except.ok { st with offset := off }
| Opt.S sz => Except.ok { st with sizev := sz }
| Opt.P n => Except.ok { st with maxPending := n }
| Opt.N n => Except.ok { st with ioThreadNum := n }
| Opt.t => Except.ok { st with tc := true }
| Opt.f bits => Except.ok { st with numBits := bits }
| Opt.m mask => Except.ok { st with logMask := mask }
| Opt.s => Except.ok { st with statFlag := true }
| Opt.H file => Except.ok { st with historyf := some file }
| Opt.L file => Except.ok { st with lookupf := some file }
| Opt.D => Except.ok { st with daemon := true }
| Opt.w t => Except.ok { st with waitTimeout := t }
| Opt.l file => Except.ok { st with logfile := some file }
| Opt.c cmd => Except.ok { st with cmdStr := some cmd }
| Opt.I idStr =>
    match env.parseNumericId idStr with
    | Except.error e => Except.error e
    | Except.ok v => Except.ok { st with transId := v, idSet := true }
| Opt.i idStr =>
    match env.parseNumericId idStr with
    | Except.error e => Except.error e
    | Except.ok v => Except.ok { st with cfgId := v }
| Opt.a addrStr =>
    match env.parseAddr addrStr with
    | Except.error e => Except.error e
    | Except.ok sp => Except.ok { st with cfgAddr := some sp }
| Opt.r addrStr =>
    match env.parseAddr addrStr with
    | Except.error e => Except.error e
    | Except.ok sp =>
        if env.reallocRemotes (st.remotes.length + 1) then
          Except.ok { st with remScratch := some sp
                            , remotes := st.remotes ++ [sp] }
        else Except.error (-12)
| Opt.j => Except.ok { st with joinFlag := true }
| Opt.d rootDir => Except.ok { st with root := some rootDir }
| Opt.W file => Except.ok { st with writef := some file }
| Opt.R file => Except.ok { st with readf := some file }
| Opt.T name =>
    if st.transforms.length == transMax - 1 then
      Except.ok st
    else if env.engineMalloc st.transforms.length then
      match env.cryptoEngineInit name with
      | Except.error e => Except.error e
      | Except.ok _ => Except.ok { st with transforms := st.transforms ++ [name] }
    else Except.error (-12)
| Opt.h => Except.error (-1)

/-- The whole getopt loop (ioserv.c lines 129-236). -/
def processOpts (env : Env) (st : St) : List Opt → Except Int St
| [] => Except.ok st
| o :: rest =>
    match stepOpt env st o with
    | Except.error e => Except.error e
    | Except.ok st2 => processOpts env st2 rest

/-- Log-file opening (ioserv.c lines 238-251): no log file is only a
warning; a present log file that fails to open aborts with `-errno`. -/
def logStep (env : Env) (st : St) : Except Int Unit :=
  match st.logfile with
  | none => Except.ok ()
  | some file => env.fopenLog file

/-- Backend selection (ioserv.c lines 253-265): with a root and `-t`, the
TokyoCabinet backend over `data.tch`/`history.tch`; with a root and no
`-t`, the file backend with `num_bits`; without a root, no backend.  A
NULL handle aborts with -EINVAL = -22. -/
def backendStep (env : Env) (st : St) : Except Int (Option (BackendKind × Nat)) :=
  match st.root with
  | none => Except.ok none
  | some rootDir =>
      if st.tc then
        match env.tcBackendInit rootDir "data.tch" "history.tch" with
        | none => Except.error (-22)
        | some h => Except.ok (some (BackendKind.kvStore, h))
      else
        match env.fileBackendSetupRoot rootDir 0 st.numBits with
        | none => Except.error (-22)
        | some h => Except.ok (some (BackendKind.fileTree st.numBits, h))

/-- The `id` pointer handed to write/read/remove: NULL unless `-I` was
given, in which case it points at `trans_id`. -/
def idArg (st : St) : Option Ident :=
  if st.idSet then some st.transId else none

/-- The transform registration loop (ioserv.c lines 274-279): register
each accumulated engine in order; the first nonzero `dnet_add_transform`
result is returned from `main`. -/
def registerTransforms (env : Env) : List String → Nat → List Event × Option Int
| [], _ => ([], none)
| name :: rest, idx =>
    if env.addTransformRes idx name ≠ 0 then
      ([Event.addTransform idx name], some (env.addTransformRes idx name))
    else
      ((Event.addTransform idx name) ::
        (registerTransforms env rest (idx + 1)).1,
       (registerTransforms env rest (idx + 1)).2)

/-- The peer loop (ioserv.c lines 281-284): `dnet_add_state` is called for
every accumulated remote in order; its result only overwrites the dead
`err` variable and is never tested, so the loop cannot abort. -/
def addRemotes (k : Nat) : List Event :=
  (List.range k).map Event.addState

/-- `if (x) { err = op(...); if (err) return err; }` — one dispatch stage
(pattern of ioserv.c lines 292-332). -/
def opStep (ev : Event) (e : Int) (next : List Event × Option Int) :
    List Event × Option Int :=
  if e ≠ 0 then ([ev], some e) else (ev :: next.1, next.2)

/-- Stat stage (ioserv.c lines 328-332). -/
def dispatchStat (env : Env) (st : St) : List Event × Option Int :=
  if st.statFlag then
    opStep Event.requestStat env.requestStatRes ([], none)
  else ([], none)

/-- Lookup stage (ioserv.c lines 322-326). -/
def dispatchLookup (env : Env) (st : St) : List Event × Option Int :=
  match st.lookupf with
  | some file => opStep (Event.lookup file) (env.lookupRes file) (dispatchStat env st)
  | none => dispatchStat env st

/-- Send-command stage (ioserv.c lines 316-320): note it passes the raw
`trans_id` buffer, not the `id` pointer. -/
def dispatchCmd (env : Env) (st : St) : List Event × Option Int :=
  match st.cmdStr with
  | some cmd => opStep (Event.sendCmd st.transId cmd) (env.sendCmdRes st.transId cmd)
      (dispatchLookup env st)
  | none => dispatchLookup env st

/-- Remove stage (ioserv.c lines 310-314). -/
def dispatchRemove (env : Env) (st : St) : List Event × Option Int :=
  match st.removef with
  | some file => opStep (Event.removeFile file (idArg st))
      (env.removeFileRes file (idArg st)) (dispatchCmd env st)
  | none => dispatchCmd env st

/-- Read-history stage (ioserv.c lines 304-308): `dnet_read_file` with
history flag 1. -/
def dispatchHistory (env : Env) (st : St) : List Event × Option Int :=
  match st.historyf with
  | some file => opStep (Event.readFile file (idArg st) st.offset st.sizev true)
      (env.readFileRes file (idArg st) st.offset st.sizev true)
      (dispatchRemove env st)
  | none => dispatchRemove env st

/-- Read stage (ioserv.c lines 298-302): `dnet_read_file` with history
flag 0. -/
def dispatchRead (env : Env) (st : St) : List Event × Option Int :=
  match st.readf with
  | some file => opStep (Event.readFile file (idArg st) st.offset st.sizev false)
      (env.readFileRes file (idArg st) st.offset st.sizev false)
      (dispatchHistory env st)
  | none => dispatchHistory env st

/-- Write stage (ioserv.c lines 292-296). -/
def dispatchWrite (env : Env) (st : St) : List Event × Option Int :=
  match st.writef with
  | some file => opStep (Event.writeFile file (idArg st) st.offset st.sizev)
      (env.writeFileRes file (idArg st) st.offset st.sizev)
      (dispatchRead env st)
  | none => dispatchRead env st

/-- The whole operation dispatcher (ioserv.c lines 292-332): the fixed
chain write, read, read-history, remove, send-command, lookup, stat.
Returns the events of the operations actually attempted and the first
nonzero error code, if any. -/
def dispatchOps (env : Env) (st : St) : List Event × Option Int :=
  dispatchWrite env st

/-- Glue: prepend the bootstrap events to the dispatch result; a dispatch
error is returned from `main`, otherwise the run ends in `done`. -/
def mkTail (pre : List Event) (d : List Event × Option Int) (done : Outcome) :
    List Event × Outcome :=
  match d.2 with
  | some e => (pre ++ d.1, Outcome.exited e)
  | none => (pre ++ d.1, done)

/-- `main` from node creation onward (ioserv.c lines 270-344): create the
node (NULL aborts with -1), register transforms, add remote peers, join if
requested (`dnet_join` failure aborts before any dispatch), dispatch the
operations, then either serve forever (join) or destroy the node and
return 0. -/
def afterDaemon (env : Env) (st : St) : List Event × Outcome :=
  match env.nodeCreate with
  | none => ([Event.nodeCreate], Outcome.exited (-1))
  | some _ =>
      match (registerTransforms env st.transforms 0).2 with
      | some e =>
          (Event.nodeCreate :: (registerTransforms env st.transforms 0).1,
           Outcome.exited e)
      | none =>
          if st.joinFlag then
            if env.joinRes ≠ 0 then
              (Event.nodeCreate :: (registerTransforms env st.transforms 0).1 ++
                 addRemotes st.remotes.length ++ [Event.joinNet],
               Outcome.exited env.joinRes)
            else
              mkTail (Event.nodeCreate :: (registerTransforms env st.transforms 0).1 ++
                 addRemotes st.remotes.length ++ [Event.joinNet])
                (dispatchOps env st) Outcome.serving
          else
            mkTail (Event.nodeCreate :: (registerTransforms env st.transforms 0).1 ++
               addRemotes st.remotes.length)
              (dispatchOps env st) (Outcome.exited 0)

/-- `main` after option parsing (ioserv.c lines 238-344): open the log,
select the backend, daemonize if asked (`dnet_background`'s -1 on fork
failure is ignored; the parent branch exits 0), then continue with
`afterDaemon`. -/
def afterOpts (env : Env) (st : St) : List Event × Outcome :=
  match logStep env st with
  | Except.error e => ([], Outcome.exited e)
  | Except.ok _ =>
      match backendStep env st with
      | Except.error e => ([], Outcome.exited e)
      | Except.ok _ =>
          if st.daemon then
            match dnetBackground env.forkRes with
            | BgResult.parentExit pid => ([], Outcome.parentExited pid)
            | BgResult.contDetached => afterDaemon env st
            | BgResult.contFailed => afterDaemon env st
          else afterDaemon env st

/-- The whole of `main` (ioserv.c lines 103-345), as a function of the
environment, the indeterminate initial contents of the `trans_id` stack
buffer, and the parsed option list. -/
def mainRun (env : Env) (stackInit : Ident) (opts : List Opt) :
    List Event × Outcome :=
  match processOpts env (initSt stackInit) opts with
  | Except.error e => ([], Outcome.exited e)
  | Except.ok st => afterOpts env st

/-- The list of requested operations, in the dispatcher's fixed order,
paired with the error code each would return: the specification-level view
of ioserv.c lines 292-332. -/
def requestedOps (env : Env) (st : St) : List (Event × Int) :=
  (match st.writef with
   | some file => [(Event.writeFile file (idArg st) st.offset st.sizev,
                    env.writeFileRes file (idArg st) st.offset st.sizev)]
   | none => []) ++
  (match st.readf with
   | some file => [(Event.readFile file (idArg st) st.offset st.sizev false,
                    env.readFileRes file (idArg st) st.offset st.sizev false)]
   | none => []) ++
  (match st.historyf with
   | some file => [(Event.readFile file (idArg st) st.offset st.sizev true,
                    env.readFileRes file (idArg st) st.offset st.sizev true)]
   | none => []) ++
  (match st.removef with
   | some file => [(Event.removeFile file (idArg st),
                    env.removeFileRes file (idArg st))]
   | none => []) ++
  (match st.cmdStr with
   | some cmd => [(Event.sendCmd st.transId cmd, env.sendCmdRes st.transId cmd)]
   | none => []) ++
  (match st.lookupf with
   | some file => [(Event.lookup file, env.lookupRes file)]
   | none => []) ++
  (if st.statFlag then [(Event.requestStat, env.requestStatRes)] else [])

/-- Run a list of (event, error-code) stages in order, stopping at the
first nonzero code. -/
def runOps : List (Event × Int) → List Event × Option Int
| [] => ([], none)
| (ev, e) :: rest => opStep ev e (runOps rest)

/-- A fully-successful environment, used to instantiate theorems at
concrete inputs. -/
def envOK : Env :=
  { parseNumericId := fun _ => Except.ok zeroId
  , parseAddr := fun s => Except.ok { addr := s, port := 1025, family := 2 }
  , engineMalloc := fun _ => true
  , reallocRemotes := fun _ => true
  , cryptoEngineInit := fun _ => Except.ok ()
  , fopenLog := fun _ => Except.ok ()
  , tcBackendInit := fun _ _ _ => some 1
  , fileBackendSetupRoot := fun _ _ _ => some 1
  , forkRes := ForkOutcome.inChild
  , nodeCreate := some 1
  , addTransformRes := fun _ _ => 0
  , addStateRes := fun _ => 0
  , joinRes := 0
  , writeFileRes := fun _ _ _ _ => 0
  , readFileRes := fun _ _ _ _ _ => 0
  , removeFileRes := fun _ _ => 0
  , sendCmdRes := fun _ _ => 0
  , lookupRes := fun _ => 0
  , requestStatRes := 0 }

/-! ### Helper definitions for the theorems -/

/-- "The last value wins": fold a selector over the option list, keeping
the most recent value; the C pattern `x = optarg;` repeated per flag. -/
def updOpt (new old : Option String) : Option String :=
  match new with
  | some f => some f
  | none => old

/-- The value left in a string variable after the whole option list, given
its value before: the last matching option's argument, else the old value. -/
def lastArg (get : Opt → Option String) (opts : List Opt) (dflt : Option String) :
    Option String :=
  opts.foldl (fun acc o => updOpt (get o) acc) dflt

/-- Selector for `-W` (write file). -/
def selW : Opt → Option String
| Opt.W file => some file
| _ => none

/-- Selector for `-R` (read file). -/
def selR : Opt → Option String
| Opt.R file => some file
| _ => none

/-- Selector for `-H` (read history). -/
def selH : Opt → Option String
| Opt.H file => some file
| _ => none

/-- Selector for `-u` (remove file). -/
def selU : Opt → Option String
| Opt.u file => some file
| _ => none

/-- Selector for `-c` (remote command). -/
def selC : Opt → Option String
| Opt.c cmd => some cmd
| _ => none

/-- Selector for `-L` (lookup). -/
def selL : Opt → Option String
| Opt.L file => some file
| _ => none

/-- Is this event one of the seven dispatched client operations? -/
def eventIsOp : Event → Bool
| Event.writeFile _ _ _ _ => true
| Event.readFile _ _ _ _ _ => true
| Event.removeFile _ _ => true
| Event.sendCmd _ _ => true
| Event.lookup _ => true
| Event.requestStat => true
| _ => false

/-- Is this event a write-file call? -/
def eventIsWrite : Event → Bool
| Event.writeFile _ _ _ _ => true
| _ => false

/-- Is this event a plain read-file call (history flag clear)? -/
def eventIsRead : Event → Bool
| Event.readFile _ _ _ _ false => true
| _ => false

/-- Is this event a read-history call (history flag set)? -/
def eventIsHistory : Event → Bool
| Event.readFile _ _ _ _ true => true
| _ => false

/-- Is this event a remove-file call? -/
def eventIsRemove : Event → Bool
| Event.removeFile _ _ => true
| _ => false

/-- Is this event a send-command call? -/
def eventIsCmd : Event → Bool
| Event.sendCmd _ _ => true
| _ => false

/-- Is this event a lookup call? -/
def eventIsLookup : Event → Bool
| Event.lookup _ => true
| _ => false

/-- The transform registration events for a chain, starting at a given
index: one `addTransform` per engine, in chain order. -/
def transformEvents : List String → Nat → List Event
| [], _ => []
| name :: rest, idx => Event.addTransform idx name :: transformEvents rest (idx + 1)

/-! ### Characterization of the successful option step -/

/-- What one successful getopt iteration does to the six operation-request
variables and the transform chain: each flag overwrites its own variable
and leaves the others alone; the chain either stays or (when not full)
grows by one entry. -/
theorem stepOpt_ok_spec (env : Env) (st st1 : St) (o : Opt)
    (hstep : stepOpt env st o = Except.ok st1) :
    st1.writef = updOpt (selW o) st.writef ∧
    st1.readf = updOpt (selR o) st.readf ∧
    st1.historyf = updOpt (selH o) st.historyf ∧
    st1.removef = updOpt (selU o) st.removef ∧
    st1.cmdStr = updOpt (selC o) st.cmdStr ∧
    st1.lookupf = updOpt (selL o) st.lookupf ∧
    (st1.transforms = st.transforms ∨
      (st.transforms.length ≠ transMax - 1 ∧
        ∃ nm, st1.transforms = st.transforms ++ [nm])) := by
  cases o with
  | I idStr =>
      cases henv : env.parseNumericId idStr with
      | error e => simp [stepOpt, henv] at hstep
      | ok v =>
          simp only [stepOpt, henv, Except.ok.injEq] at hstep
          subst hstep
          simp [selW, selR, selH, selU, selC, selL, updOpt]
  | i idStr =>
      cases henv : env.parseNumericId idStr with
      | error e => simp [stepOpt, henv] at hstep
      | ok v =>
          simp only [stepOpt, henv, Except.ok.injEq] at hstep
          subst hstep
          simp [selW, selR, selH, selU, selC, selL, updOpt]
  | a addrStr =>
      cases henv : env.parseAddr addrStr with
      | error e => simp [stepOpt, henv] at hstep
      | ok sp =>
          simp only [stepOpt, henv, Except.ok.injEq] at hstep
          subst hstep
          simp [selW, selR, selH, selU, selC, selL, updOpt]
  | r addrStr =>
      cases henv : env.parseAddr addrStr with
      | error e => simp [stepOpt, henv] at hstep
      | ok sp =>
          by_cases hre : env.reallocRemotes (st.remotes.length + 1)
          · simp only [stepOpt, henv, hre, if_true, Except.ok.injEq, reduceIte] at hstep
            subst hstep
            simp [selW, selR, selH, selU, selC, selL, updOpt]
          · simp [stepOpt, henv, hre] at hstep
  | T name =>
      by_cases hfull : st.transforms.length = transMax - 1
      · simp only [stepOpt, beq_iff_eq, hfull, if_true, Except.ok.injEq, reduceIte] at hstep
        subst hstep
        simp [selW, selR, selH, selU, selC, selL, updOpt]
      · by_cases hm : env.engineMalloc st.transforms.length
        · cases hce : env.cryptoEngineInit name with
          | error e => simp [stepOpt, beq_iff_eq, hfull, hm, hce] at hstep
          | ok v =>
              simp only [stepOpt, beq_iff_eq, hfull, hm, hce, if_true, if_false,
                Except.ok.injEq, reduceIte] at hstep
              subst hstep
              refine ⟨rfl, rfl, rfl, rfl, rfl, rfl, Or.inr ⟨hfull, name, rfl⟩⟩
        · simp [stepOpt, beq_iff_eq, hfull, hm] at hstep
  | h => simp [stepOpt] at hstep
  | u file =>
      simp only [stepOpt, Except.ok.injEq] at hstep
      subst hstep
      simp [selW, selR, selH, selU, selC, selL, updOpt]
  | O off =>
      simp only [stepOpt, Except.ok.injEq] at hstep
      subst hstep
      simp [selW, selR, selH, selU, selC, selL, updOpt]
  | S sz =>
      simp only [stepOpt, Except.ok.injEq] at hstep
      subst hstep
      simp [selW, selR, selH, selU, selC, selL, updOpt]
  | P n =>
      simp only [stepOpt, Except.ok.injEq] at hstep
      subst hstep
      simp [selW, selR, selH, selU, selC, selL, updOpt]
  | N n =>
      simp only [stepOpt, Except.ok.injEq] at hstep
      subst hstep
      simp [selW, selR, selH, selU, selC, selL, updOpt]
  | t =>
      simp only [stepOpt, Except.ok.injEq] at hstep
      subst hstep
      simp [selW, selR, selH, selU, selC, selL, updOpt]
  | f bits =>
      simp only [stepOpt, Except.ok.injEq] at hstep
      subst hstep
      simp [selW, selR, selH, selU, selC, selL, updOpt]
  | m mask =>
      simp only [stepOpt, Except.ok.injEq] at hstep
      subst hstep
      simp [selW, selR, selH, selU, selC, selL, updOpt]
  | s =>
      simp only [stepOpt, Except.ok.injEq] at hstep
      subst hstep
      simp [selW, selR, selH, selU, selC, selL, updOpt]
  | H file =>
      simp only [stepOpt, Except.ok.injEq] at hstep
      subst hstep
      simp [selW, selR, selH, selU, selC, selL, updOpt]
  | L file =>
      simp only [stepOpt, Except.ok.injEq] at hstep
      subst hstep
      simp [selW, selR, selH, selU, selC, selL, updOpt]
  | D =>
      simp only [stepOpt, Except.ok.injEq] at hstep
      subst hstep
      simp [selW, selR, selH, selU, selC, selL, updOpt]
  | w t =>
      simp only [stepOpt, Except.ok.injEq] at hstep
      subst hstep
      simp [selW, selR, selH, selU, selC, selL, updOpt]
  | l file =>
      simp only [stepOpt, Except.ok.injEq] at hstep
      subst hstep
      simp [selW, selR, selH, selU, selC, selL, updOpt]
  | c cmd =>
      simp only [stepOpt, Except.ok.injEq] at hstep
      subst hstep
      simp [selW, selR, selH, selU, selC, selL, updOpt]
  | j =>
      simp only [stepOpt, Except.ok.injEq] at hstep
      subst hstep
      simp [selW, selR, selH, selU, selC, selL, updOpt]
  | d rootDir =>
      simp only [stepOpt, Except.ok.injEq] at hstep
      subst hstep
      simp [selW, selR, selH, selU, selC, selL, updOpt]
  | W file =>
      simp only [stepOpt, Except.ok.injEq] at hstep
      subst hstep
      simp [selW, selR, selH, selU, selC, selL, updOpt]
  | R file =>
      simp only [stepOpt, Except.ok.injEq] at hstep
      subst hstep
      simp [selW, selR, selH, selU, selC, selL, updOpt]

/-! ### The dispatcher as a run over the requested-operation list -/

/-- The literal if-chain dispatcher equals running the requested-operation
list in its fixed order. -/
theorem dispatchOps_eq (env : Env) (st : St) :
    dispatchOps env st = runOps (requestedOps env st) := by
  unfold dispatchOps requestedOps dispatchWrite dispatchRead dispatchHistory
    dispatchRemove dispatchCmd dispatchLookup dispatchStat
  cases st.writef <;> cases st.readf <;> cases st.historyf <;>
    cases st.removef <;> cases st.cmdStr <;> cases st.lookupf <;>
    cases st.statFlag <;>
    simp [runOps, opStep]

/-- If every stage reports success, every stage runs, in order. -/
theorem runOps_all_ok (l : List (Event × Int)) (h : ∀ p ∈ l, p.2 = 0) :
    runOps l = (l.map Prod.fst, none) := by
  induction l with
  | nil => rfl
  | cons p rest ih =>
      obtain ⟨ev, e⟩ := p
      have he : e = 0 := h (ev, e) (List.mem_cons_self _ _)
      have hrest : ∀ q ∈ rest, q.2 = 0 := fun q hq => h q (List.mem_cons_of_mem _ hq)
      simp [runOps, opStep, he, ih hrest]

/-- The first failing stage stops the run: the successful prefix and the
failing stage are attempted, the failing stage's code is the result, and
no later stage is attempted. -/
theorem runOps_first_fail (l1 l2 : List (Event × Int)) (ev : Event) (e : Int)
    (h1 : ∀ p ∈ l1, p.2 = 0) (he : e ≠ 0) :
    runOps (l1 ++ (ev, e) :: l2) = (l1.map Prod.fst ++ [ev], some e) := by
  induction l1 with
  | nil => simp [runOps, opStep, he]
  | cons p rest ih =>
      obtain ⟨ev1, e1⟩ := p
      have he1 : e1 = 0 := h1 (ev1, e1) (List.mem_cons_self _ _)
      have hrest : ∀ q ∈ rest, q.2 = 0 := fun q hq => h1 q (List.mem_cons_of_mem _ hq)
      simp [runOps, opStep, he1, ih hrest]

/-- Every event in a run's trace comes from the stage list. -/
theorem runOps_events_sub (l : List (Event × Int)) (ev : Event)
    (h : ev ∈ (runOps l).1) : ev ∈ l.map Prod.fst := by
  induction l with
  | nil => simp [runOps] at h
  | cons p rest ih =>
      obtain ⟨ev1, e1⟩ := p
      by_cases he : e1 = 0
      · simp [runOps, opStep, he] at h
        rcases h with h | h
        · simp [h]
        · exact List.mem_cons_of_mem _ (ih h)
      · simp [runOps, opStep, he] at h
        simp [h]

/-- Every operation in the requested list is one of the seven dispatch
events. -/
theorem requestedOps_all_op (env : Env) (st : St) (p : Event × Int)
    (hp : p ∈ requestedOps env st) : eventIsOp p.1 = true := by
  simp only [requestedOps, List.mem_append] at hp
  rcases hp with ((((((h | h) | h) | h) | h) | h) | h)
  · cases hw : st.writef <;> simp [hw] at h <;> simp [h, eventIsOp]
  · cases hr : st.readf <;> simp [hr] at h <;> simp [h, eventIsOp]
  · cases hh : st.historyf <;> simp [hh] at h <;> simp [h, eventIsOp]
  · cases hu : st.removef <;> simp [hu] at h <;> simp [h, eventIsOp]
  · cases hc : st.cmdStr <;> simp [hc] at h <;> simp [h, eventIsOp]
  · cases hl : st.lookupf <;> simp [hl] at h <;> simp [h, eventIsOp]
  · cases hs : st.statFlag <;> simp [hs] at h <;> simp [h, eventIsOp]

/-- Every event the dispatcher emits is a dispatched-operation event. -/
theorem dispatchOps_all_op (env : Env) (st : St) (ev : Event)
    (h : ev ∈ (dispatchOps env st).1) : eventIsOp ev = true := by
  rw [dispatchOps_eq] at h
  have := runOps_events_sub _ _ h
  rcases List.mem_map.mp this with ⟨p, hp, hpe⟩
  rw [← hpe]
  exact requestedOps_all_op env st p hp

/-! ### Option-loop inductions -/

/-- After a successful pass over the whole option list, each of the six
operation-request variables holds the argument of the last occurrence of
its flag (or its prior value if the flag never occurred). -/
theorem processOpts_last_wins (env : Env) :
    ∀ (opts : List Opt) (st0 st1 : St),
    processOpts env st0 opts = Except.ok st1 →
    st1.writef = lastArg selW opts st0.writef ∧
    st1.readf = lastArg selR opts st0.readf ∧
    st1.historyf = lastArg selH opts st0.historyf ∧
    st1.removef = lastArg selU opts st0.removef ∧
    st1.cmdStr = lastArg selC opts st0.cmdStr ∧
    st1.lookupf = lastArg selL opts st0.lookupf := by
  intro opts
  induction opts with
  | nil =>
      intro st0 st1 h
      simp only [processOpts, Except.ok.injEq] at h
      subst h
      simp [lastArg]
  | cons o rest ih =>
      intro st0 st1 h
      simp only [processOpts] at h
      cases hstep : stepOpt env st0 o with
      | error e => rw [hstep] at h; simp at h
      | ok st2 =>
          rw [hstep] at h
          obtain ⟨h1, h2, h3, h4, h5, h6, _⟩ := stepOpt_ok_spec env st0 st2 o hstep
          obtain ⟨g1, g2, g3, g4, g5, g6⟩ := ih st2 st1 h
          refine ⟨?_, ?_, ?_, ?_, ?_, ?_⟩ <;>
            simp [lastArg, List.foldl_cons, g1, g2, g3, g4, g5, g6, h1, h2, h3, h4, h5, h6]

/-- A successful option step never pushes the transform chain past the
reserved bound `transMax - 1`. -/
theorem stepOpt_transforms_bound (env : Env) (st st1 : St) (o : Opt)
    (hlen : st.transforms.length ≤ transMax - 1)
    (hstep : stepOpt env st o = Except.ok st1) :
    st1.transforms.length ≤ transMax - 1 := by
  obtain ⟨_, _, _, _, _, _, htr⟩ := stepOpt_ok_spec env st st1 o hstep
  rcases htr with htr | ⟨hne, nm, htr⟩
  · rw [htr]; exact hlen
  · rw [htr]
    simp only [List.length_append, List.length_singleton]
    omega

/-- The transform-chain bound is an invariant of the whole option loop. -/
theorem processOpts_transforms_bound (env : Env) :
    ∀ (opts : List Opt) (st0 st1 : St),
    st0.transforms.length ≤ transMax - 1 →
    processOpts env st0 opts = Except.ok st1 →
    st1.transforms.length ≤ transMax - 1 := by
  intro opts
  induction opts with
  | nil =>
      intro st0 st1 hlen h
      simp only [processOpts, Except.ok.injEq] at h
      subst h
      exact hlen
  | cons o rest ih =>
      intro st0 st1 hlen h
      simp only [processOpts] at h
      cases hstep : stepOpt env st0 o with
      | error e => rw [hstep] at h; simp at h
      | ok st2 =>
          rw [hstep] at h
          exact ih st2 st1 (stepOpt_transforms_bound env st0 st2 o hlen hstep) h

/-! ### Transform registration -/

/-- Behavior of the registration loop from a given start index: with `i`
the number of leading successes (all of the chain if nothing fails), the
loop attempts exactly the first `min (i+1) length` engines in chain order
and stops at the first failure, whose code it returns. -/
theorem registerTransforms_spec (env : Env) :
    ∀ (names : List String) (i0 i : Nat),
    i ≤ names.length →
    (∀ j ∈ List.range i, env.addTransformRes (i0 + j) (names.getD j "") = 0) →
    (i < names.length → env.addTransformRes (i0 + i) (names.getD i "") ≠ 0) →
    registerTransforms env names i0 =
      (transformEvents (names.take (i + 1)) i0,
       if i < names.length then some (env.addTransformRes (i0 + i) (names.getD i ""))
       else none) := by
  intro names
  induction names with
  | nil =>
      intro i0 i hi _ _
      have : i = 0 := Nat.le_zero.mp hi
      subst this
      simp [registerTransforms, transformEvents]
  | cons nm rest ih =>
      intro i0 i hi hpre hfail
      cases i with
      | zero =>
          have hne : env.addTransformRes (i0 + 0) ((nm :: rest).getD 0 "") ≠ 0 :=
            hfail (Nat.succ_pos _)
          simp only [List.getD_cons_zero, Nat.add_zero] at hne
          simp [registerTransforms, transformEvents, hne]
      | succ k =>
          have h0 : env.addTransformRes (i0 + 0) ((nm :: rest).getD 0 "") = 0 :=
            hpre 0 (List.mem_range.mpr (Nat.succ_pos _))
          simp only [List.getD_cons_zero, Nat.add_zero] at h0
          have hk : k ≤ rest.length := by
            simp only [List.length_cons] at hi
            omega
          have hrec := ih (i0 + 1) k hk
            (fun j hj => by
              have := hpre (j + 1) (by
                simp only [List.mem_range] at hj ⊢
                omega)
              simpa [Nat.add_assoc, Nat.add_comm 1 j] using this)
            (fun hklt => by
              have := hfail (by simpa using Nat.succ_lt_succ hklt)
              simpa [Nat.add_assoc, Nat.add_comm 1 k] using this)
          have harith : i0 + 1 + k = i0 + (k + 1) := by omega
          simp only [registerTransforms, h0, ne_eq, not_true_eq_false, if_false,
            ite_false, hrec]
          simp [List.take_succ_cons, transformEvents, List.getD_cons_succ,
            List.length_cons, harith, Nat.succ_lt_succ_iff]

/-- Every event the registration loop emits is an `addTransform` event,
never a dispatched operation. -/
theorem registerTransforms_events_not_op (env : Env) :
    ∀ (names : List String) (i0 : Nat) (ev : Event),
    ev ∈ (registerTransforms env names i0).1 → eventIsOp ev = false := by
  intro names
  induction names with
  | nil => intro i0 ev h; simp [registerTransforms] at h
  | cons nm rest ih =>
      intro i0 ev h
      by_cases he : env.addTransformRes i0 nm = 0
      · simp [registerTransforms, he] at h
        rcases h with h | h
        · simp [h, eventIsOp]
        · exact ih (i0 + 1) ev h
      · simp [registerTransforms, he] at h
        simp [h, eventIsOp]

/-! ### The peer-add results never influence the run -/

/-- One option step never consults `dnet_add_state`'s result. -/
theorem stepOpt_addState_irrel (env : Env) (f : Nat → Int) (st : St) (o : Opt) :
    stepOpt { env with addStateRes := f } st o = stepOpt env st o := by
  cases o <;> rfl

/-- The option loop never consults `dnet_add_state`'s result. -/
theorem processOpts_addState_irrel (env : Env) (f : Nat → Int) :
    ∀ (opts : List Opt) (st : St),
    processOpts { env with addStateRes := f } st opts = processOpts env st opts := by
  intro opts
  induction opts with
  | nil => intro st; rfl
  | cons o rest ih =>
      intro st
      simp only [processOpts, stepOpt_addState_irrel]
      cases stepOpt env st o with
      | error e => rfl
      | ok st2 => exact ih st2

/-- Transform registration never consults `dnet_add_state`'s result. -/
theorem registerTransforms_addState_irrel (env : Env) (f : Nat → Int) :
    ∀ (names : List String) (i0 : Nat),
    registerTransforms { env with addStateRes := f } names i0 =
      registerTransforms env names i0 := by
  intro names
  induction names with
  | nil => intro i0; rfl
  | cons nm rest ih =>
      intro i0
      simp only [registerTransforms]
      rw [ih (i0 + 1)]

/-- The post-daemon phase never consults `dnet_add_state`'s result: the
peer loop's `err` is dead. -/
theorem afterDaemon_addState_irrel (env : Env) (f : Nat → Int) (st : St) :
    afterDaemon { env with addStateRes := f } st = afterDaemon env st := by
  unfold afterDaemon
  simp only [registerTransforms_addState_irrel]
  rfl

/-- The whole post-parse phase never consults `dnet_add_state`'s result. -/
theorem afterOpts_addState_irrel (env : Env) (f : Nat → Int) (st : St) :
    afterOpts { env with addStateRes := f } st = afterOpts env st := by
  unfold afterOpts
  simp only [afterDaemon_addState_irrel]
  rfl

/-- The whole program run is unchanged under any change to the
`dnet_add_state` result oracle. -/
theorem mainRun_addState_irrel (env : Env) (f : Nat → Int) (stackInit : Ident)
    (opts : List Opt) :
    mainRun { env with addStateRes := f } stackInit opts = mainRun env stackInit opts := by
  unfold mainRun
  simp only [processOpts_addState_irrel]
  cases processOpts env (initSt stackInit) opts with
  | error e => rfl
  | ok st => exact afterOpts_addState_irrel env f st

/-! ### Shape of the post-daemon phase -/

/-- Bootstrap events before the join step: node creation, the transform
registrations, the peer adds. -/
def preEvents (env : Env) (st : St) : List Event :=
  Event.nodeCreate :: (registerTransforms env st.transforms 0).1 ++
    addRemotes st.remotes.length

/-- Full characterization of the post-daemon phase when node creation and
all transform registrations succeed: join failure exits with the join
error before any dispatch; join success dispatches and then serves;
without a join request the node dispatches, is destroyed and the process
exits 0 (or with the first dispatch error). -/
theorem afterDaemon_char (env : Env) (st : St) (n : Nat)
    (hn : env.nodeCreate = some n)
    (ht : (registerTransforms env st.transforms 0).2 = none) :
    afterDaemon env st =
      (if st.joinFlag then
        (if env.joinRes ≠ 0 then
          (preEvents env st ++ [Event.joinNet], Outcome.exited env.joinRes)
         else
          (preEvents env st ++ [Event.joinNet] ++ (dispatchOps env st).1,
           match (dispatchOps env st).2 with
           | some e => Outcome.exited e
           | none => Outcome.serving))
       else
        (preEvents env st ++ (dispatchOps env st).1,
         match (dispatchOps env st).2 with
         | some e => Outcome.exited e
         | none => Outcome.exited 0)) := by
  unfold afterDaemon preEvents
  rw [hn, ht]
  cases hj : st.joinFlag
  · simp only [Bool.false_eq_true, if_false, ite_false, mkTail]
    cases hd : (dispatchOps env st).2 <;> simp [hd]
  · by_cases hjr : env.joinRes = 0
    · simp only [hjr, ne_eq, not_true_eq_false, if_false, ite_false, if_true, ite_true,
        mkTail, not_false_eq_true]
      cases hd : (dispatchOps env st).2 <;> simp [hd]
    · simp [hjr, mkTail]

/-- The post-daemon phase always begins by creating the node. -/
theorem afterDaemon_head (env : Env) (st : St) :
    (afterDaemon env st).1.head? = some Event.nodeCreate := by
  unfold afterDaemon
  cases env.nodeCreate
  · rfl
  · cases (registerTransforms env st.transforms 0).2
    · cases st.joinFlag
      · simp only [Bool.false_eq_true, if_false, ite_false, mkTail]
        cases (dispatchOps env st).2 <;> rfl
      · by_cases hjr : env.joinRes ≠ 0
        · simp [hjr, mkTail]
        · simp only [hjr, if_false, ite_false, mkTail]
          cases (dispatchOps env st).2 <;> rfl
    · rfl

/-- No pre-join bootstrap event is a dispatched operation. -/
theorem preEvents_not_op (env : Env) (st : St) (ev : Event)
    (h : ev ∈ preEvents env st) : eventIsOp ev = false := by
  simp only [preEvents, List.cons_append, List.mem_cons, List.mem_append] at h
  rcases h with h | h | h
  · simp [h, eventIsOp]
  · exact registerTransforms_events_not_op env st.transforms 0 ev h
  · simp only [addRemotes, List.mem_map] at h
    obtain ⟨i, _, hi⟩ := h
    simp [← hi, eventIsOp]

/-! ### Claim C1: independence of dispatched operations -/

/-- Environment in which `dnet_write_file` fails with -5 and everything
else succeeds. -/
def envC1 : Env := { envOK with writeFileRes := fun _ _ _ _ => -5 }

/-- State after parsing `-W a -R b`. -/
def stC1 : St := { initSt zeroId with writef := some "a", readf := some "b" }

/-- C1, counterexample: with `-W a -R b` and a failing write, `main`
returns the write error immediately — the requested read is never
attempted, contradicting the claim that every queued operation is
attempted and reports its failure independently. -/
theorem claim1_counterexample :
    mainRun envC1 zeroId [Opt.W "a", Opt.R "b"] =
      ([Event.nodeCreate, Event.writeFile "a" none 0 0], Outcome.exited (-5)) ∧
    Event.readFile "b" none 0 0 false ∉ (mainRun envC1 zeroId [Opt.W "a", Opt.R "b"]).1 := by
  constructor
  · rfl
  · decide

/-- C1, amended: a failure of an earlier dispatched operation aborts the
invocation with that operation's error code; the later requested
operations are NOT attempted (only the successful prefix and the failing
operation run), and the failing code becomes the process exit code. -/
theorem claim1_amended (env : Env) (st : St) (l1 l2 : List (Event × Int))
    (ev : Event) (e : Int) (pre : List Event) (done : Outcome)
    (hsplit : requestedOps env st = l1 ++ (ev, e) :: l2)
    (h1 : ∀ p ∈ l1, p.2 = 0) (he : e ≠ 0) :
    dispatchOps env st = (l1.map Prod.fst ++ [ev], some e) ∧
    mkTail pre (dispatchOps env st) done =
      (pre ++ (l1.map Prod.fst ++ [ev]), Outcome.exited e) := by
  have h := dispatchOps_eq env st
  rw [hsplit] at h
  rw [h, runOps_first_fail l1 l2 ev e h1 he]
  exact ⟨rfl, rfl⟩

/-- C1, witness: the amended theorem applied to the `-W a -R b` run with
a failing write. -/
theorem claim1_witness :
    requestedOps envC1 stC1 =
      [] ++ (Event.writeFile "a" none 0 0, -5) :: [(Event.readFile "b" none 0 0 false, 0)] ∧
    (-5 : Int) ≠ 0 ∧
    (dispatchOps envC1 stC1 = ([Event.writeFile "a" none 0 0], some (-5)) ∧
     mkTail [Event.nodeCreate] (dispatchOps envC1 stC1) (Outcome.exited 0) =
       ([Event.nodeCreate, Event.writeFile "a" none 0 0], Outcome.exited (-5))) :=
  ⟨rfl, by decide,
   claim1_amended envC1 stC1 [] [(Event.readFile "b" none 0 0 false, 0)]
     (Event.writeFile "a" none 0 0) (-5) [Event.nodeCreate] (Outcome.exited 0)
     rfl (by simp) (by decide)⟩

/-! ### Claim C2: daemonization -/

/-- Environment in which `fork` fails. -/
def envC2 : Env := { envOK with forkRes := ForkOutcome.failed }

/-- C2, counterexample: with `-D` and a failing fork, the process does NOT
exit non-zero without creating the node — `main` ignores
`dnet_background`'s -1, proceeds to create the node, and exits 0. -/
theorem claim2_counterexample :
    mainRun envC2 zeroId [Opt.D] = ([Event.nodeCreate], Outcome.exited 0) ∧
    Event.nodeCreate ∈ (mainRun envC2 zeroId [Opt.D]).1 := by
  constructor
  · rfl
  · decide

/-- Environment in which this process is the daemonizing parent of child
pid 7. -/
def envC2w : Env := { envOK with forkRes := ForkOutcome.inParent 7 }

/-- State after parsing `-D`. -/
def stC2 : St := { initSt zeroId with daemon := true }

/-- C2, amended: when daemonizing is requested, the parent branch prints
the child pid and exits 0 and the child continues detached; but when fork
fails, `dnet_background` returns -1 WITHOUT detaching and `main` ignores
that result — bootstrap proceeds to node creation exactly as in the child
branch (the process does not exit non-zero). -/
theorem claim2_amended (env : Env) (st : St) (b : Option (BackendKind × Nat))
    (pid : Nat)
    (hd : st.daemon = true)
    (hlog : logStep env st = Except.ok ())
    (hbk : backendStep env st = Except.ok b) :
    afterOpts env st =
      (match dnetBackground env.forkRes with
       | BgResult.parentExit p => ([], Outcome.parentExited p)
       | BgResult.contDetached => afterDaemon env st
       | BgResult.contFailed => afterDaemon env st) ∧
    dnetBackground ForkOutcome.failed = BgResult.contFailed ∧
    dnetBackground (ForkOutcome.inParent pid) = BgResult.parentExit pid ∧
    (afterDaemon env st).1.head? = some Event.nodeCreate := by
  refine ⟨?_, rfl, rfl, afterDaemon_head env st⟩
  unfold afterOpts
  rw [hlog, hbk, hd]
  simp only [if_true, ite_true]

/-- C2, witness: the amended theorem applied to a `-D` run in the parent
branch of a successful fork. -/
theorem claim2_witness :
    stC2.daemon = true ∧
    logStep envC2w stC2 = Except.ok () ∧
    backendStep envC2w stC2 = Except.ok none ∧
    (afterOpts envC2w stC2 =
      (match dnetBackground envC2w.forkRes with
       | BgResult.parentExit p => ([], Outcome.parentExited p)
       | BgResult.contDetached => afterDaemon envC2w stC2
       | BgResult.contFailed => afterDaemon envC2w stC2) ∧
     dnetBackground ForkOutcome.failed = BgResult.contFailed ∧
     dnetBackground (ForkOutcome.inParent 7) = BgResult.parentExit 7 ∧
     (afterDaemon envC2w stC2).1.head? = some Event.nodeCreate) :=
  ⟨rfl, rfl, rfl, claim2_amended envC2w stC2 none 7 rfl rfl rfl⟩

/-! ### Claim C3: default transaction identifier -/

/-- Indeterminate stack contents for the `trans_id` buffer: all bytes 255. -/
def garbageId : Ident := List.replicate DNET_ID_SIZE 255

/-- C3: the claim that the transaction identifier used by send-command
defaults to all-zero is wrong in the code: without `-I`, `trans_id` is an
uninitialized stack buffer, and `dnet_send_cmd` receives whatever it
happens to contain (here: all bytes 255, not zero).  The second half of
the claim is right: the `id` pointer passed to write is NULL (`none`).
Evaluating the run at the failing input `-c exec -W f`: -/
theorem claim3_bug :
    mainRun envOK garbageId [Opt.c "exec", Opt.W "f"] =
      ([Event.nodeCreate, Event.writeFile "f" none 0 0,
        Event.sendCmd garbageId "exec"], Outcome.exited 0) ∧
    garbageId ≠ zeroId := by
  constructor
  · rfl
  · decide

/-! ### Claim C4: peer-add failures -/

/-- Environment in which every `dnet_add_state` call fails with -111
(-ECONNREFUSED) and everything else succeeds. -/
def envC4 : Env := { envOK with addStateRes := fun _ => -111 }

/-- C4, counterexample: with two remote peers whose `dnet_add_state` both
fail, the process still exits 0 — the last peer-add error is NOT reported
via the exit code (the `err` variable is dead after the loop). -/
theorem claim4_counterexample :
    mainRun envC4 zeroId [Opt.r "p1", Opt.r "p2"] =
      ([Event.nodeCreate, Event.addState 0, Event.addState 1], Outcome.exited 0) ∧
    envC4.addStateRes 1 ≠ 0 := by
  constructor
  · rfl
  · decide

/-- C4, amended: a peer-add failure indeed does not abort bootstrap, and
every peer in the list is attempted in order; but the claim's "the last
error code ... is recorded and reported" is wrong: the run (its trace and
its outcome, hence the exit code) is entirely independent of the
`dnet_add_state` results, which only overwrite a dead variable. -/
theorem claim4_amended (env : Env) (f g : Nat → Int) (stackInit : Ident)
    (opts : List Opt) (k : Nat) :
    addRemotes k = (List.range k).map Event.addState ∧
    mainRun { env with addStateRes := f } stackInit opts =
      mainRun { env with addStateRes := g } stackInit opts := by
  constructor
  · rfl
  · rw [mainRun_addState_irrel env f stackInit opts,
        mainRun_addState_irrel env g stackInit opts]

/-! ### Claim C5: the serve loop -/

/-- The pre-join bootstrap events contain no dispatched operation, as a
filter fact. -/
theorem preEvents_filter_op (env : Env) (st : St) :
    (preEvents env st).filter eventIsOp = [] := by
  rw [List.filter_eq_nil]
  intro a ha
  simp [preEvents_not_op env st a ha]

/-- The dispatcher's trace consists only of dispatched operations, as a
filter fact. -/
theorem dispatchOps_filter_op (env : Env) (st : St) :
    ((dispatchOps env st).1).filter eventIsOp = (dispatchOps env st).1 := by
  rw [List.filter_eq_self]
  intro a ha
  exact dispatchOps_all_op env st a ha

/-- Environment whose `dnet_join` fails with -3. -/
def envC5 : Env := { envOK with joinRes := -3 }

/-- State after parsing `-j`. -/
def stC5 : St := { initSt zeroId with joinFlag := true }

/-- C5: when node creation and transform registration succeed, the serve
loop is entered iff join was requested AND `dnet_join` returned 0 AND
every dispatched operation succeeded; a failing `dnet_join` exits with its
error before any dispatched operation runs; without a join request the
run never serves and exits 0 or with the first dispatch error. -/
theorem claim5_amended (env : Env) (st : St) (n : Nat)
    (hn : env.nodeCreate = some n)
    (ht : (registerTransforms env st.transforms 0).2 = none) :
    ((afterDaemon env st).2 = Outcome.serving ↔
      st.joinFlag = true ∧ env.joinRes = 0 ∧ (dispatchOps env st).2 = none) ∧
    ((afterDaemon env st).1).filter eventIsOp =
      (if st.joinFlag = true ∧ env.joinRes ≠ 0 then [] else (dispatchOps env st).1) ∧
    (afterDaemon env st).2 =
      (if st.joinFlag then
        (if env.joinRes ≠ 0 then Outcome.exited env.joinRes
         else match (dispatchOps env st).2 with
              | some e => Outcome.exited e
              | none => Outcome.serving)
       else match (dispatchOps env st).2 with
            | some e => Outcome.exited e
            | none => Outcome.exited 0) := by
  rw [afterDaemon_char env st n hn ht]
  cases hj : st.joinFlag
  · refine ⟨?_, ?_, ?_⟩
    · cases hd : (dispatchOps env st).2 <;> simp [hd]
    · simp [List.filter_append, preEvents_filter_op, dispatchOps_filter_op]
    · simp
  · by_cases hjr : env.joinRes = 0
    · refine ⟨?_, ?_, ?_⟩
      · cases hd : (dispatchOps env st).2 <;> simp [hd, hjr]
      · simp [hjr, List.filter_append, preEvents_filter_op, dispatchOps_filter_op,
          eventIsOp]
      · simp [hjr]
    · refine ⟨?_, ?_, ?_⟩
      · simp [hjr]
      · simp [hjr, List.filter_append, preEvents_filter_op, eventIsOp]
      · simp [hjr]

/-- Environment in which `dnet_join` succeeds but `dnet_write_file` fails
with -5. -/
def envC5x : Env := { envOK with writeFileRes := fun _ _ _ _ => -5 }

/-- C5, counterexample to the claim as stated: join is requested and
`dnet_join` succeeds, yet the process does not enter the serve loop,
because a dispatched write fails afterwards — the claimed "if and only
if" is wrong in the "if" direction. -/
theorem claim5_counterexample :
    mainRun envC5x zeroId [Opt.j, Opt.W "f"] =
      ([Event.nodeCreate, Event.joinNet, Event.writeFile "f" none 0 0],
       Outcome.exited (-5)) ∧
    envC5x.joinRes = 0 ∧
    (mainRun envC5x zeroId [Opt.j, Opt.W "f"]).2 ≠ Outcome.serving := by
  refine ⟨rfl, rfl, ?_⟩
  decide

/-- C5, witness: the amended theorem applied to a `-j` run whose
`dnet_join` fails with -3. -/
theorem claim5_witness :
    envC5.nodeCreate = some 1 ∧
    (registerTransforms envC5 stC5.transforms 0).2 = none ∧
    (((afterDaemon envC5 stC5).2 = Outcome.serving ↔
       stC5.joinFlag = true ∧ envC5.joinRes = 0 ∧ (dispatchOps envC5 stC5).2 = none) ∧
     ((afterDaemon envC5 stC5).1).filter eventIsOp =
       (if stC5.joinFlag = true ∧ envC5.joinRes ≠ 0 then [] else (dispatchOps envC5 stC5).1) ∧
     (afterDaemon envC5 stC5).2 =
       (if stC5.joinFlag then
         (if envC5.joinRes ≠ 0 then Outcome.exited envC5.joinRes
          else match (dispatchOps envC5 stC5).2 with
               | some e => Outcome.exited e
               | none => Outcome.serving)
        else match (dispatchOps envC5 stC5).2 with
             | some e => Outcome.exited e
             | none => Outcome.exited 0)) :=
  ⟨rfl, rfl, claim5_amended envC5 stC5 1 rfl rfl⟩

/-! ### Claim C6: transform chain capacity -/

/-- C6: starting from the beginning of option processing, the transform
chain never grows beyond `transMax - 1` (= 4) entries; and once a state
has exactly `transMax - 1` chain entries, a further `-T` request is
dropped (the state is returned unchanged) while option processing
continues (the step succeeds rather than erroring). -/
theorem claim6_theorem (env env2 : Env) (stackInit : Ident) (opts : List Opt)
    (st1 stFull : St) (name : String)
    (h : processOpts env (initSt stackInit) opts = Except.ok st1)
    (hfull : stFull.transforms.length = transMax - 1) :
    st1.transforms.length ≤ transMax - 1 ∧
    stepOpt env2 stFull (Opt.T name) = Except.ok stFull := by
  constructor
  · exact processOpts_transforms_bound env opts (initSt stackInit) st1
      (by simp [initSt]) h
  · simp [stepOpt, hfull]

/-- State with a full transform chain, as produced by
`-T md5 -T sha1 -T x -T y -T z -T q` (the last two requests dropped). -/
def stC6 : St := { initSt zeroId with transforms := ["md5", "sha1", "x", "y"] }

/-- C6, witness: six `-T` requests leave exactly 4 chain entries and a
further request on the full state is dropped without an error. -/
theorem claim6_witness :
    processOpts envOK (initSt zeroId)
        [Opt.T "md5", Opt.T "sha1", Opt.T "x", Opt.T "y", Opt.T "z", Opt.T "q"] =
      Except.ok stC6 ∧
    stC6.transforms.length = transMax - 1 ∧
    (stC6.transforms.length ≤ transMax - 1 ∧
     stepOpt envOK stC6 (Opt.T "w") = Except.ok stC6) :=
  ⟨rfl, rfl,
   claim6_theorem envOK envOK zeroId
     [Opt.T "md5", Opt.T "sha1", Opt.T "x", Opt.T "y", Opt.T "z", Opt.T "q"]
     stC6 stC6 "w" rfl rfl⟩

/-! ### Claim C7: backend selection -/

/-- C7: with a root and `-t`, the key-value backend (data and history
database files) is selected; with a root and no `-t`, the tree backend
with the configured fan-out width; with no root, no backend and no error;
and a NULL backend handle aborts the run with -EINVAL on an empty trace —
before node creation. -/
theorem claim7_theorem (env : Env) (st : St)
    (hlog : logStep env st = Except.ok ()) :
    backendStep env st =
      (match st.root with
       | none => Except.ok none
       | some rootDir =>
           match (if st.tc then env.tcBackendInit rootDir "data.tch" "history.tch"
                  else env.fileBackendSetupRoot rootDir 0 st.numBits) with
           | none => Except.error (-22)
           | some h =>
               Except.ok (some ((if st.tc then BackendKind.kvStore
                                 else BackendKind.fileTree st.numBits), h))) ∧
    afterOpts env st =
      (match backendStep env st with
       | Except.error e => ([], Outcome.exited e)
       | Except.ok _ =>
           if st.daemon then
             (match dnetBackground env.forkRes with
              | BgResult.parentExit pid => ([], Outcome.parentExited pid)
              | _ => afterDaemon env st)
           else afterDaemon env st) := by
  constructor
  · unfold backendStep
    cases st.root with
    | none => rfl
    | some rootDir =>
        cases htc : st.tc
        · simp only [Bool.false_eq_true, if_false, ite_false]
        · simp only [if_true, ite_true]
  · unfold afterOpts
    rw [hlog]
    cases backendStep env st with
    | error e => rfl
    | ok b =>
        cases st.daemon
        · rfl
        · cases dnetBackground env.forkRes <;> rfl

/-- Environment whose file backend fails to initialize (NULL handle). -/
def envC7 : Env := { envOK with fileBackendSetupRoot := fun _ _ _ => none }

/-- State after parsing `-d /data` (tree backend selected). -/
def stC7 : St := { initSt zeroId with root := some "/data" }

/-- C7, witness: the theorem applied to a `-d /data` configuration whose
tree backend cannot be set up: bootstrap exits -22 (-EINVAL) with an
empty trace, i.e. before node creation. -/
theorem claim7_witness :
    logStep envC7 stC7 = Except.ok () ∧
    (backendStep envC7 stC7 = Except.error (-22) ∧
     afterOpts envC7 stC7 = ([], Outcome.exited (-22))) :=
  ⟨rfl, claim7_theorem envC7 stC7 rfl⟩

/-! ### Claim C8: fixed dispatch order -/

/-- Environment whose `dnet_lookup` fails with -2. -/
def envC8 : Env := { envOK with lookupRes := fun _ => -2 }

/-- C8, counterexample: with `-L x -s` and a failing lookup, the requested
stat operation is never executed — the dispatcher does not execute
"exactly the requested ones" when an earlier one fails. -/
theorem claim8_counterexample :
    mainRun envC8 zeroId [Opt.L "x", Opt.s] =
      ([Event.nodeCreate, Event.lookup "x"], Outcome.exited (-2)) ∧
    Event.requestStat ∉ (mainRun envC8 zeroId [Opt.L "x", Opt.s]).1 := by
  constructor
  · rfl
  · decide

/-- C8, amended: when every requested operation succeeds, the dispatcher
executes exactly the requested operations, in the fixed order write-file,
read-file, read-history, remove-file, send-command, lookup, request-stat
(the order of `requestedOps`), and an operation not requested is skipped;
when one fails, the chain stops there instead. -/
theorem claim8_amended (env : Env) (st : St)
    (h : ∀ p ∈ requestedOps env st, p.2 = 0) :
    dispatchOps env st = ((requestedOps env st).map Prod.fst, none) := by
  rw [dispatchOps_eq]
  exact runOps_all_ok _ h

/-- State after parsing `-W a -s` (write then stat requested). -/
def stC8 : St := { initSt zeroId with writef := some "a", statFlag := true }

/-- C8, witness: the amended theorem applied to a `-W a -s` state under
the all-success environment: exactly the write and the stat run, in
order. -/
theorem claim8_witness :
    (∀ p ∈ requestedOps envOK stC8, p.2 = 0) ∧
    dispatchOps envOK stC8 =
      ([Event.writeFile "a" none 0 0, Event.requestStat], none) :=
  ⟨by decide, claim8_amended envOK stC8 (by decide)⟩

/-! ### Claim C9: transform registration order and failure -/

/-- C9: with `i` the number of leading successful registrations, the
accumulated transforms are registered with the node in chain order; the
registration loop attempts exactly the first `i+1` engines and stops at
the first failure, returning its code (with nothing rolled back — the
earlier registrations' events stand), and the post-daemon phase exits
with exactly that code. -/
theorem claim9_theorem (env : Env) (st : St) (n : Nat) (i : Nat)
    (hn : env.nodeCreate = some n)
    (hi : i ≤ st.transforms.length)
    (hpre : ∀ j ∈ List.range i, env.addTransformRes j (st.transforms.getD j "") = 0)
    (hfail : i < st.transforms.length →
      env.addTransformRes i (st.transforms.getD i "") ≠ 0) :
    registerTransforms env st.transforms 0 =
      (transformEvents (st.transforms.take (i + 1)) 0,
       if i < st.transforms.length
       then some (env.addTransformRes i (st.transforms.getD i ""))
       else none) ∧
    (afterDaemon env st).2 =
      (if i < st.transforms.length
       then Outcome.exited (env.addTransformRes i (st.transforms.getD i ""))
       else (afterDaemon env st).2) := by
  have hreg := registerTransforms_spec env st.transforms 0 i hi
    (fun j hj => by simpa using hpre j hj)
    (fun hlt => by simpa using hfail hlt)
  simp only [Nat.zero_add] at hreg
  refine ⟨hreg, ?_⟩
  by_cases hlt : i < st.transforms.length
  · unfold afterDaemon
    rw [hn, hreg]
    simp [hlt]
  · simp [hlt]

/-- Environment in which the second `dnet_add_transform` call fails with
-7. -/
def envC9 : Env :=
  { envOK with addTransformRes := fun idx _ => if idx = 0 then 0 else -7 }

/-- State after parsing `-T md5 -T sha1 -T crc`. -/
def stC9 : St := { initSt zeroId with transforms := ["md5", "sha1", "crc"] }

/-- C9, witness: the theorem applied to a three-engine chain whose second
registration fails with -7: the loop attempts `md5` then `sha1` in order,
stops, and the process exits -7. -/
theorem claim9_witness :
    envC9.nodeCreate = some 1 ∧
    1 ≤ stC9.transforms.length ∧
    (∀ j ∈ List.range 1, envC9.addTransformRes j (stC9.transforms.getD j "") = 0) ∧
    (1 < stC9.transforms.length →
      envC9.addTransformRes 1 (stC9.transforms.getD 1 "") ≠ 0) ∧
    (registerTransforms envC9 stC9.transforms 0 =
      ([Event.addTransform 0 "md5", Event.addTransform 1 "sha1"], some (-7)) ∧
     (afterDaemon envC9 stC9).2 = Outcome.exited (-7)) :=
  ⟨rfl, by decide, by decide, by decide,
   claim9_theorem envC9 stC9 1 1 rfl (by decide) (by decide) (by decide)⟩

/-! ### Claim C10: repeated flags overwrite; at most one op per kind -/

/-- The run over the stage list attempts at most as many events of any
kind as the stage list holds. -/
theorem runOps_countP_le (p : Event → Bool) :
    ∀ l : List (Event × Int), ((runOps l).1).countP p ≤ (l.map Prod.fst).countP p := by
  intro l
  induction l with
  | nil => simp [runOps]
  | cons q rest ih =>
      obtain ⟨ev, e⟩ := q
      by_cases he : e = 0
      · simp only [runOps, opStep, he, ne_eq, not_true_eq_false, if_false, ite_false,
          List.map_cons, List.countP_cons]
        omega
      · simp only [runOps, opStep, he, ne_eq, not_false_eq_true, if_true, ite_true,
          List.map_cons, List.countP_cons, List.countP_nil]
        have : (0 : Nat) ≤ (rest.map Prod.fst).countP p := Nat.zero_le _
        omega

/-- The requested-operation list holds at most one operation of each of
the six argument-carrying kinds. -/
theorem requestedOps_countP (env : Env) (st : St) :
    ((requestedOps env st).map Prod.fst).countP eventIsWrite ≤ 1 ∧
    ((requestedOps env st).map Prod.fst).countP eventIsRead ≤ 1 ∧
    ((requestedOps env st).map Prod.fst).countP eventIsHistory ≤ 1 ∧
    ((requestedOps env st).map Prod.fst).countP eventIsRemove ≤ 1 ∧
    ((requestedOps env st).map Prod.fst).countP eventIsCmd ≤ 1 ∧
    ((requestedOps env st).map Prod.fst).countP eventIsLookup ≤ 1 := by
  unfold requestedOps
  cases st.writef <;> cases st.readf <;> cases st.historyf <;> cases st.removef <;>
    cases st.cmdStr <;> cases st.lookupf <;> cases st.statFlag <;>
    simp [eventIsWrite, eventIsRead, eventIsHistory, eventIsRemove, eventIsCmd,
      eventIsLookup, List.countP_cons, List.countP_nil]

/-- C10: each repeated operation flag overwrites the previous occurrence
— after option processing each of the six operation variables holds the
last-supplied argument of its flag — and the dispatcher consequently
attempts at most one operation of each kind per invocation. -/
theorem claim10_theorem (env : Env) (stackInit : Ident) (opts : List Opt) (st1 : St)
    (h : processOpts env (initSt stackInit) opts = Except.ok st1) :
    st1.writef = lastArg selW opts none ∧
    st1.readf = lastArg selR opts none ∧
    st1.historyf = lastArg selH opts none ∧
    st1.removef = lastArg selU opts none ∧
    st1.cmdStr = lastArg selC opts none ∧
    st1.lookupf = lastArg selL opts none ∧
    ((dispatchOps env st1).1).countP eventIsWrite ≤ 1 ∧
    ((dispatchOps env st1).1).countP eventIsRead ≤ 1 ∧
    ((dispatchOps env st1).1).countP eventIsHistory ≤ 1 ∧
    ((dispatchOps env st1).1).countP eventIsRemove ≤ 1 ∧
    ((dispatchOps env st1).1).countP eventIsCmd ≤ 1 ∧
    ((dispatchOps env st1).1).countP eventIsLookup ≤ 1 := by
  obtain ⟨g1, g2, g3, g4, g5, g6⟩ := processOpts_last_wins env opts (initSt stackInit) st1 h
  obtain ⟨k1, k2, k3, k4, k5, k6⟩ := requestedOps_countP env st1
  have hd := dispatchOps_eq env st1
  refine ⟨g1, g2, g3, g4, g5, g6, ?_, ?_, ?_, ?_, ?_, ?_⟩ <;> rw [hd]
  · exact le_trans (runOps_countP_le eventIsWrite _) k1
  · exact le_trans (runOps_countP_le eventIsRead _) k2
  · exact le_trans (runOps_countP_le eventIsHistory _) k3
  · exact le_trans (runOps_countP_le eventIsRemove _) k4
  · exact le_trans (runOps_countP_le eventIsCmd _) k5
  · exact le_trans (runOps_countP_le eventIsLookup _) k6

/-- State left by `-W a -W b -c x -c y` : only the last write filename
and command string survive. -/
def stC10 : St := { initSt zeroId with writef := some "b", cmdStr := some "y" }

/-- C10, witness: the theorem applied to `-W a -W b -c x -c y`: the later
occurrences win and at most one write and one command are dispatched. -/
theorem claim10_witness :
    processOpts envOK (initSt zeroId) [Opt.W "a", Opt.W "b", Opt.c "x", Opt.c "y"] =
      Except.ok stC10 ∧
    (stC10.writef = some "b" ∧
     stC10.readf = none ∧
     stC10.historyf = none ∧
     stC10.removef = none ∧
     stC10.cmdStr = some "y" ∧
     stC10.lookupf = none ∧
     ((dispatchOps envOK stC10).1).countP eventIsWrite ≤ 1 ∧
     ((dispatchOps envOK stC10).1).countP eventIsRead ≤ 1 ∧
     ((dispatchOps envOK stC10).1).countP eventIsHistory ≤ 1 ∧
     ((dispatchOps envOK stC10).1).countP eventIsRemove ≤ 1 ∧
     ((dispatchOps envOK stC10).1).countP eventIsCmd ≤ 1 ∧
     ((dispatchOps envOK stC10).1).countP eventIsLookup ≤ 1) :=
  ⟨rfl, claim10_theorem envOK zeroId [Opt.W "a", Opt.W "b", Opt.c "x", Opt.c "y"]
    stC10 rfl⟩
